import Mathlib

/-!
Verification development for the quickdev (Nehonix WatchTower) file
watcher and process supervisor.

The Go sources are shallowly embedded:

* `QuickDev.GoStd` — the pieces of the Go standard library the watcher
  relies on (`path/filepath.Match`, `filepath.Ext`, `filepath.Base`,
  `strings.Split`, `strings.Contains`, `strconv.Atoi`), translated from
  the Go implementations (Unix path separator; machine-width overflow of
  `strconv` is not modelled since no claim exercises it).
* `QuickDev.Watcher` — `internal/watcher/watcher.go`: hashing store,
  change detection, batching, and the batch-flush filter.
* `QuickDev.Process` — `internal/process/manager.go`: the process
  manager state machine (restart ceiling, restart statistics).

Clock readings, file contents, and process-launch outcomes are
environment inputs and are passed explicitly.  The MD5 digest function
is a parameter (`md5Hex`): the code only ever compares digests for
equality, so every claim is proved for an arbitrary digest function.
-/

namespace QuickDev

namespace GoStd

/-- One scan step of Go `path/filepath.scanChunk`: strip the leading
run of stars, reporting whether at least one star was present. -/
def stripStars : List Char → Bool × List Char
  | [] => (false, [])
  | c :: rest => if c = '*' then (true, (stripStars rest).2) else (false, c :: rest)

/-- Body of Go `scanChunk`'s scan loop: split the pattern into the
chunk up to (but not including) the next star that is outside a
character class, and the remainder starting at that star. -/
def scanChunkAux : List Char → Bool → List Char × List Char
  | [], _ => ([], [])
  | c :: rest, inrange =>
    if c = '\\' then
      match rest with
      | [] => ([c], [])
      | d :: rest2 =>
        let (ch, rst) := scanChunkAux rest2 inrange
        (c :: d :: ch, rst)
    else if c = '[' then
      let (ch, rst) := scanChunkAux rest true
      (c :: ch, rst)
    else if c = ']' then
      let (ch, rst) := scanChunkAux rest false
      (c :: ch, rst)
    else if c = '*' then
      if inrange then
        let (ch, rst) := scanChunkAux rest inrange
        (c :: ch, rst)
      else ([], c :: rest)
    else
      let (ch, rst) := scanChunkAux rest inrange
      (c :: ch, rst)

/-- Go `path/filepath.scanChunk`: gets the next segment of a pattern. -/
def scanChunk (pattern : List Char) : Bool × List Char × List Char :=
  let (star, p1) := stripStars pattern
  let (chunk, rest) := scanChunkAux p1 false
  (star, chunk, rest)

/-- Go `path/filepath.getEsc`: gets a possibly-escaped character from a
character-class chunk; `none` is `ErrBadPattern`. -/
def getEsc : List Char → Option (Char × List Char)
  | [] => none
  | c :: chunk =>
    if c = '-' ∨ c = ']' then none
    else
      match (if c = '\\' then chunk else c :: chunk) with
      | [] => none
      | r :: nchunk => if nchunk = [] then none else some (r, nchunk)

/-- Result of Go `matchChunk`: bad pattern, no match, or the unmatched
rest of the name. -/
inductive ChunkResult where
  | badPattern
  | noMatch
  | matched (rest : List Char)
  deriving DecidableEq

/-- The character-class loop of Go `matchChunk` (the `case '['` arm):
consume ranges until the closing bracket, tracking whether the already
consumed rune `r` fell into one of them.  `seenRange` models Go's
`nrange > 0`.  The fuel exceeds the chunk length, which strictly
shrinks each iteration (`getEsc` consumes at least one character), so
the `fuel = 0` default is unreachable. -/
def bracketMatch : Nat → Char → List Char → Bool → Bool → Option (Bool × List Char)
  | 0, _, _, _, _ => none
  | fuel + 1, r, chunk, matched, seenRange =>
    if chunk.head? = some ']' ∧ seenRange then some (matched, chunk.tail)
    else
      match getEsc chunk with
      | none => none
      | some (lo, chunk1) =>
        match (if chunk1.head? = some '-' then getEsc chunk1.tail else some (lo, chunk1)) with
        | none => none
        | some (hi, chunk2) =>
          bracketMatch fuel r chunk2 (matched || (decide (lo ≤ r) && decide (r ≤ hi))) true

/-- Go `path/filepath.matchChunk` (fuelled; the chunk strictly shrinks
each iteration so `chunk.length + 1` fuel is ample and the `fuel = 0`
default is unreachable).  `failed` is Go's deferred-failure flag: the
chunk must still be consumed to diagnose bad patterns. -/
def matchChunkF : Nat → List Char → List Char → Bool → ChunkResult
  | 0, _, _, _ => .badPattern
  | fuel + 1, chunk, s, failed =>
    match chunk with
    | [] => if failed then .noMatch else .matched s
    | c :: chunkRest =>
      let failed := failed || s.isEmpty
      if c = '[' then
        let rs : Char × List Char :=
          if failed then (Char.ofNat 0, s)
          else
            match s with
            | [] => (Char.ofNat 0, s)
            | a :: rest => (a, rest)
        let negChunk : Bool × List Char :=
          match chunkRest with
          | '^' :: rest2 => (true, rest2)
          | _ => (false, chunkRest)
        match bracketMatch (negChunk.2.length + 1) rs.1 negChunk.2 false false with
        | none => .badPattern
        | some (m, chunkAfter) =>
          matchChunkF fuel chunkAfter rs.2 (failed || (m == negChunk.1))
      else if c = '?' then
        let fs : Bool × List Char :=
          if failed then (failed, s)
          else
            match s with
            | [] => (failed, s)
            | a :: rest => (failed || (a == '/'), rest)
        matchChunkF fuel chunkRest fs.2 fs.1
      else if c = '\\' then
        match chunkRest with
        | [] => .badPattern
        | d :: rest2 =>
          let fs : Bool × List Char :=
            if failed then (failed, s)
            else
              match s with
              | [] => (failed, s)
              | a :: rest => (failed || (d != a), rest)
          matchChunkF fuel rest2 fs.2 fs.1
      else
        let fs : Bool × List Char :=
          if failed then (failed, s)
          else
            match s with
            | [] => (failed, s)
            | a :: rest => (failed || (c != a), rest)
        matchChunkF fuel chunkRest fs.2 fs.1

/-- Go `matchChunk`, entered with the failure flag clear. -/
def matchChunkRun (chunk s : List Char) : ChunkResult :=
  matchChunkF (chunk.length + 1) chunk s false

/-- Outcome of the star-retry loop of Go `Match`. -/
inductive StarResult where
  | badPattern
  | notFound
  | found (t : List Char)
  deriving DecidableEq

/-- The star-retry loop of Go `Match`: look for a chunk match skipping
one more leading name character per iteration, never skipping past a
path separator.  A `found t` result makes the outer loop continue with
the rest of the pattern against `t` (Go performs no backtracking into
this loop afterwards, so it factors out as a pure search). -/
def starSearch (chunk rest : List Char) : List Char → StarResult
  | [] => .notFound
  | c :: name2 =>
    if c = '/' then .notFound
    else
      match matchChunkRun chunk name2 with
      | .badPattern => .badPattern
      | .matched t =>
        if rest.isEmpty && !t.isEmpty then starSearch chunk rest name2
        else .found t
      | .noMatch => starSearch chunk rest name2

/-- The outer `Pattern:` loop of Go `path/filepath.Match` (fuelled;
each iteration strictly shrinks the pattern, since `scanChunk` consumes
at least one character, so `pattern.length + 1` fuel is ample and the
`fuel = 0` default is unreachable).  `.error ()` is `ErrBadPattern`. -/
def matchGoF : Nat → List Char → List Char → Except Unit Bool
  | 0, _, _ => .ok false
  | fuel + 1, pattern, name =>
    match pattern with
    | [] => .ok name.isEmpty
    | _ :: _ =>
      let (star, chunk, rest) := scanChunk pattern
      if star && chunk.isEmpty then .ok (!(name.contains '/'))
      else
        match matchChunkRun chunk name with
        | .badPattern => .error ()
        | .matched t =>
          if t.isEmpty || !rest.isEmpty then matchGoF fuel rest t
          else if star then
            match starSearch chunk rest name with
            | .badPattern => .error ()
            | .found t2 => matchGoF fuel rest t2
            | .notFound => .ok false
          else .ok false
        | .noMatch =>
          if star then
            match starSearch chunk rest name with
            | .badPattern => .error ()
            | .found t2 => matchGoF fuel rest t2
            | .notFound => .ok false
          else .ok false

/-- Go `path/filepath.Match pattern name` (Unix separator). -/
def filepathMatch (pattern name : String) : Except Unit Bool :=
  matchGoF (pattern.data.length + 1) pattern.data name.data

/-- `matched, _ := filepath.Match(pattern, name)`: the watcher discards
the error, so a bad pattern counts as not matched. -/
def matchedOrFalse (pattern name : String) : Bool :=
  match filepathMatch pattern name with
  | .ok b => b
  | .error _ => false

/-- Go `path/filepath.Ext`: the suffix of the final path element
starting at its last dot, scanning backwards and stopping at a
separator. -/
def extLoop : List Char → List Char → String
  | [], _ => ""
  | c :: rest, acc =>
    if c = '/' then ""
    else if c = '.' then String.mk (c :: acc)
    else extLoop rest (c :: acc)

/-- Go `path/filepath.Ext` on a `String`. -/
def filepathExt (p : String) : String :=
  extLoop p.data.reverse []

/-- Go `path/filepath.Base` (Unix): last element of the path after
stripping trailing separators; `"."` for the empty path, `"/"` when the
path is all separators. -/
def filepathBase (p : String) : String :=
  if p = "" then "."
  else
    let stripped := (p.data.reverse.dropWhile (fun c => c == '/')).reverse
    if stripped = [] then "/"
    else String.mk (stripped.reverse.takeWhile (fun c => c != '/')).reverse

/-- Go `strings.Split s " "` (single-character space separator, empty
fields preserved). -/
def splitSpaceAux : List Char → List Char → List String
  | [], acc => [String.mk acc.reverse]
  | c :: rest, acc =>
    if c = ' ' then String.mk acc.reverse :: splitSpaceAux rest []
    else splitSpaceAux rest (c :: acc)

/-- Go `strings.Split s " "`. -/
def goSplitSpace (s : String) : List String :=
  splitSpaceAux s.data []

/-- Sublist containment on character lists (Go `strings.Contains`). -/
def containsSubList (hay needle : List Char) : Bool :=
  match hay with
  | [] => needle.isEmpty
  | _ :: t => List.isPrefixOf needle hay || containsSubList t needle

/-- Go `strings.Contains s sub`. -/
def goContains (s sub : String) : Bool :=
  containsSubList s.data sub.data

/-- Go `strconv.Atoi` (optional sign, decimal digits; the 64-bit
overflow error is not modelled — no claim exercises it). -/
def goAtoi (s : String) : Option Int :=
  match s.data with
  | [] => none
  | c :: rest =>
    let sd : Bool × List Char :=
      if c = '-' then (true, rest)
      else if c = '+' then (false, rest)
      else (false, c :: rest)
    if sd.2 = [] then none
    else if sd.2.all (fun d => 48 ≤ d.toNat && d.toNat ≤ 57) then
      let n : Nat := sd.2.foldl (fun acc d => acc * 10 + (d.toNat - 48)) 0
      some (if sd.1 then -(n : Int) else (n : Int))
    else none

end GoStd

/-- The configuration fields of `types.FileWatcherConfig` that the
watcher core and the process manager read (the remaining fields only
drive components outside the claims: health checks, dot-file root
filtering, terminal output). -/
structure FileWatcherConfig where
  ignorePaths : List String
  extensions : List String
  maxRestarts : Int
  resetRestartsAfter : Int
  restartDelay : Int
  batchChanges : Bool
  batchTimeout : Int
  enableFileHashing : Bool
  maxFileSize : Int
  excludeEmptyFiles : Bool
  deriving DecidableEq

/-- `types.FileChangeEvent`.  `Stats` (the live `os.FileInfo` handle)
and `RelativePath` (computed by `filepath.Rel` against the first watch
root) are not modelled: no claim reads them.  Timestamps are abstract
integer clock readings. -/
structure FileChangeEvent where
  eventType : String
  filename : String
  fullPath : String
  timestamp : Int
  size : Int
  hash : String
  previousHash : String
  isDirectory : Bool
  deriving DecidableEq

namespace Watcher

open GoStd

/-- The `fw.fileHashes` map, as an association list; a missing key
reads as `""` exactly like a Go map's zero value. -/
def FileHashes : Type := List (String × String)

instance : DecidableEq FileHashes := by
  unfold FileHashes
  infer_instance

/-- Go map read `fw.fileHashes[path]` (zero value `""` when absent). -/
def hashLookup (fh : FileHashes) (path : String) : String :=
  match List.find? (fun kv => kv.1 == path) fh with
  | some kv => kv.2
  | none => ""

/-- Go map write `fw.fileHashes[path] = h`. -/
def hashInsert (fh : FileHashes) (path h : String) : FileHashes :=
  match fh with
  | [] => [(path, h)]
  | kv :: rest => if kv.1 == path then (path, h) :: rest else kv :: hashInsert rest path h

/-- `calculateHash` (watcher.go:191-204): MD5-hex of the file bytes;
any open or read failure yields `""`.  The digest function itself is a
parameter (`md5Hex`); `content = none` models an unreadable file. -/
def calculateHash (md5Hex : List Nat → String) (content : Option (List Nat)) : String :=
  match content with
  | none => ""
  | some bytes => md5Hex bytes

/-- `hasFileChanged` (watcher.go:170-188): compare the fresh digest
with the stored one, storing the fresh digest exactly when they
differ.  Returns the changed flag and the updated hash store. -/
def hasFileChanged (md5Hex : List Nat → String) (fh : FileHashes) (path : String)
    (isDir : Bool) (content : Option (List Nat)) : Bool × FileHashes :=
  if isDir then (false, fh)
  else
    let newHash := calculateHash md5Hex content
    let oldHash := hashLookup fh path
    if newHash ≠ oldHash then (true, hashInsert fh path newHash)
    else (false, fh)

/-- `createChangeEvent` (watcher.go:215-238).  Called after
`hasFileChanged` has already stored the fresh digest, so
`previousHash` re-reads the updated map (a quirk preserved from the
source).  `now` is the `time.Now()` reading. -/
def createChangeEvent (md5Hex : List Nat → String) (fh : FileHashes) (path : String)
    (isDir : Bool) (size : Int) (content : Option (List Nat)) (now : Int) : FileChangeEvent :=
  { eventType := "change"
    filename := filepathBase path
    fullPath := path
    timestamp := now
    size := size
    hash := calculateHash md5Hex content
    previousHash := hashLookup fh path
    isDirectory := isDir }

/-- One filesystem entry visited by the `filepath.Walk` callback in
`checkForChanges`.  `content = none` models an unreadable file (the
walk-error branch, which only feeds the error channel, is not
modelled: it produces no change event). -/
structure WalkEntry where
  path : String
  isDir : Bool
  size : Int
  content : Option (List Nat)
  deriving DecidableEq

/-- The ignore test of `checkForChanges` (watcher.go:146-150): the
path is skipped when any configured ignore pattern `filepath.Match`es
the whole walk path (the match error is discarded). -/
def shouldIgnorePath (cfg : FileWatcherConfig) (path : String) : Bool :=
  cfg.ignorePaths.any (fun ignorePath => matchedOrFalse ignorePath path)

/-- The body of the `filepath.Walk` callback in `checkForChanges`
(watcher.go:138-167) for a single visited entry: ignore patterns, the
size limit, then the hash-based change test; a confirmed change yields
the event passed to `handleChange`. -/
def checkForChanges (cfg : FileWatcherConfig) (md5Hex : List Nat → String)
    (fh : FileHashes) (e : WalkEntry) (now : Int) : Option FileChangeEvent × FileHashes :=
  if shouldIgnorePath cfg e.path then (none, fh)
  else if e.isDir = false ∧ 0 < cfg.maxFileSize ∧ cfg.maxFileSize * 1024 * 1024 < e.size then
    (none, fh)
  else if cfg.enableFileHashing then
    match hasFileChanged md5Hex fh e.path e.isDir e.content with
    | (true, fh2) => (some (createChangeEvent md5Hex fh2 e.path e.isDir e.size e.content now), fh2)
    | (false, fh2) => (none, fh2)
  else (none, fh)

/-- The observable state of the watcher's event plumbing: the batch
accumulator `fw.batchChanges`, the delivered events on
`fw.changeChannel` (in send order), the deadline of the pending
`fw.batchTimer`, and how many non-empty flushes have happened. -/
structure WatcherState where
  batchBuffer : List FileChangeEvent
  changeChannel : List FileChangeEvent
  batchDeadline : Int
  flushCount : Nat
  deriving DecidableEq

/-- `handleChange` (watcher.go:241-249): append to the batch
accumulator when batching is on, otherwise send straight to the change
channel.  Note that neither branch touches the batch timer. -/
def handleChange (cfg : FileWatcherConfig) (ws : WatcherState) (event : FileChangeEvent) :
    WatcherState :=
  if cfg.batchChanges then { ws with batchBuffer := ws.batchBuffer ++ [event] }
  else { ws with changeChannel := ws.changeChannel ++ [event] }

/-- The per-change filter loop of `processBatchEvent`
(watcher.go:280-306): drop empty files when configured, drop oversized
files, keep only allowed extensions (of `change.Filename`). -/
def batchFilter (cfg : FileWatcherConfig) (change : FileChangeEvent) : Bool :=
  if cfg.excludeEmptyFiles = true ∧ change.size = 0 ∧ change.isDirectory = false then false
  else if 0 < cfg.maxFileSize ∧ cfg.maxFileSize * 1024 * 1024 < change.size then false
  else
    let ext := filepathExt change.filename
    cfg.extensions.any (fun allowedExt => ext == allowedExt)

/-- `processBatchEvent` (watcher.go:275-318): filter the batched
changes, then send each surviving change to the change channel when
any remain.  Returns the list of events sent. -/
def processBatchEvent (cfg : FileWatcherConfig) (changes : List FileChangeEvent) :
    List FileChangeEvent :=
  let filteredChanges := changes.filter (fun change => batchFilter cfg change)
  if 0 < filteredChanges.length then filteredChanges else []

/-- One `batchTimer.C` iteration of `processBatchChanges`
(watcher.go:252-272), firing at time `t`: flush the accumulator
through `processBatchEvent` when non-empty, then `Reset` the timer to
fire `batchTimeout` later.  (The `done`-channel exit arm carries no
state.) -/
def processBatchTick (cfg : FileWatcherConfig) (ws : WatcherState) (t : Int) : WatcherState :=
  let ws2 :=
    if ws.batchBuffer = [] then ws
    else
      { ws with
        batchBuffer := []
        changeChannel := ws.changeChannel ++ processBatchEvent cfg ws.batchBuffer
        flushCount := ws.flushCount + 1 }
  { ws2 with batchDeadline := t + cfg.batchTimeout }

/-- An observable action of the batching subsystem: `enq ev t` is
`handleChange` called at time `t` (with batching enabled), `fire t` is
the batch timer firing at time `t`. -/
inductive BatchAction where
  | enq (event : FileChangeEvent) (t : Int)
  | fire (t : Int)
  deriving DecidableEq

/-- Interpret one batch action on the watcher state. -/
def batchStep (cfg : FileWatcherConfig) (ws : WatcherState) : BatchAction → WatcherState
  | .enq event _ => handleChange cfg ws event
  | .fire t => processBatchTick cfg ws t

/-- Run a sequence of batch actions. -/
def batchRun (cfg : FileWatcherConfig) (ws : WatcherState) : List BatchAction → WatcherState
  | [] => ws
  | a :: rest => batchRun cfg (batchStep cfg ws a) rest

/-- A batch trace is realistic when time never runs backwards, the
timer fires exactly at its pending deadline (the code always re-arms
it), and no enqueue slips past a deadline without the fire in
between. -/
def batchTraceValid (cfg : FileWatcherConfig) : WatcherState → Int → List BatchAction → Bool
  | _, _, [] => true
  | ws, now, .enq event t :: rest =>
    decide (now ≤ t) && decide (t ≤ ws.batchDeadline) &&
      batchTraceValid cfg (handleChange cfg ws event) t rest
  | ws, now, .fire t :: rest =>
    (t == ws.batchDeadline) && decide (now ≤ t) &&
      batchTraceValid cfg (processBatchTick cfg ws t) t rest

end Watcher

/-- `types.MemoryUsage`: the `runtime.ReadMemStats` snapshot recorded
into restart history entries (an environment input here). -/
structure MemoryUsage where
  heapTotal : Nat
  heapUsed : Nat
  externalMem : Nat
  processMemory : Nat
  deriving DecidableEq

/-- `types.RestartHistoryEntry` (the variant used by
`internal/process/manager.go`). -/
structure RestartHistoryEntry where
  timestamp : Int
  reason : String
  duration : Int
  success : Bool
  fileCount : Int
  memoryUsage : MemoryUsage
  deriving DecidableEq

/-- `types.RestartStats` (the variant used by
`internal/process/manager.go`).  Durations and timestamps are abstract
integer clock units. -/
structure RestartStats where
  totalRestarts : Int
  lastRestart : Option Int
  averageRestartTime : Int
  fastestRestart : Int
  slowestRestart : Int
  successfulRestarts : Int
  failedRestarts : Int
  restartHistory : List RestartHistoryEntry
  deriving DecidableEq

namespace Process

open GoStd

/-- Errors returned by the process manager's operations, one
constructor per distinct `fmt.Errorf` site (`RestartLimitExceeded` is
`limitExceeded`; runner-resolution failure and `cmd.Start` failure are
both launch failures, `startFailed`). -/
inductive ProcError where
  | alreadyRunning
  | limitExceeded
  | stopFailed
  | startFailed
  deriving DecidableEq

/-- The mutable fields of `ProcessManager` the claims are about
(`cmd`, the environment slice, and the path fields never affect the
restart-ceiling or statistics logic).  `lastRestart` is a clock
reading, zero-valued like Go's `time.Time{}`. -/
structure ProcessManager where
  stats : RestartStats
  lastRestart : Int
  restartCount : Int
  isRunning : Bool
  deriving DecidableEq

/-- `NewProcessManager`: zero-valued stats and counters. -/
def newProcessManager : ProcessManager :=
  { stats :=
      { totalRestarts := 0
        lastRestart := none
        averageRestartTime := 0
        fastestRestart := 0
        slowestRestart := 0
        successfulRestarts := 0
        failedRestarts := 0
        restartHistory := [] }
    lastRestart := 0
    restartCount := 0
    isRunning := false }

/-- Environment inputs of one manager operation: the successive
`time.Now()` readings (`tCheck` in the ceiling check, `tStart` for
`startTime`, `tLaunch` when the child comes up, `tEnd` when the
duration is measured), whether stopping and launching the child
succeed, and the memory snapshot taken by `addToHistory`. -/
structure RestartEnv where
  tCheck : Int
  tStart : Int
  tLaunch : Int
  tEnd : Int
  stopOk : Bool
  startOk : Bool
  mem : MemoryUsage
  deriving DecidableEq

/-- The file-count parse of `addToHistory` (manager.go:276-288): when
the reason mentions "files changed", split on spaces and `Atoi` the
word before the first non-leading "files"; any failure leaves the
count at 1. -/
def parseFileCount (reason : String) : Int :=
  if goContains reason "files changed" then fileCountScan none (goSplitSpace reason)
  else 1
where
  /-- The `for i, part` scan: the `Option String` argument is the
  previous word, `none` at index 0 (the `i > 0` guard). -/
  fileCountScan : Option String → List String → Int
    | _, [] => 1
    | none, part :: rest => fileCountScan (some part) rest
    | some prev, part :: rest =>
      if part = "files" then (goAtoi prev).getD 1
      else fileCountScan (some part) rest

/-- `addToHistory` (manager.go:264-304): build the history entry and
append it, dropping the oldest entry once the history holds 100. -/
def addToHistory (stats : RestartStats) (timestamp : Int) (reason : String)
    (duration : Int) (success : Bool) (mem : MemoryUsage) : RestartStats :=
  let entry : RestartHistoryEntry :=
    { timestamp := timestamp
      reason := reason
      duration := duration
      success := success
      fileCount := parseFileCount reason
      memoryUsage := mem }
  let history :=
    if 100 ≤ stats.restartHistory.length then stats.restartHistory.tail
    else stats.restartHistory
  { stats with restartHistory := history ++ [entry] }

/-- `recordRestartSuccess` (manager.go:232-254), with
`duration = tEnd - tStart`: bump the totals, update the fastest /
slowest / average timings (Go integer division truncates toward zero,
`Int.tdiv`), and append to history. -/
def recordRestartSuccess (pm : ProcessManager) (tStart tEnd : Int) (reason : String)
    (mem : MemoryUsage) : ProcessManager :=
  let duration := tEnd - tStart
  let s1 :=
    { pm.stats with
      totalRestarts := pm.stats.totalRestarts + 1
      successfulRestarts := pm.stats.successfulRestarts + 1
      lastRestart := some tStart }
  let s2 :=
    { s1 with
      fastestRestart :=
        if duration < s1.fastestRestart ∨ s1.fastestRestart = 0 then duration
        else s1.fastestRestart }
  let s3 :=
    { s2 with
      slowestRestart := if s2.slowestRestart < duration then duration else s2.slowestRestart }
  let totalTime := s3.averageRestartTime * (s3.totalRestarts - 1)
  let s4 := { s3 with averageRestartTime := Int.tdiv (totalTime + duration) s3.totalRestarts }
  { pm with stats := addToHistory s4 tStart reason duration true mem }

/-- `recordRestartFailure` (manager.go:257-261). -/
def recordRestartFailure (pm : ProcessManager) (tStart tEnd : Int) (reason : String)
    (mem : MemoryUsage) : ProcessManager :=
  let s1 :=
    { pm.stats with
      totalRestarts := pm.stats.totalRestarts + 1
      failedRestarts := pm.stats.failedRestarts + 1 }
  { pm with stats := addToHistory s1 tStart reason (tEnd - tStart) false mem }

/-- `startProcess` (manager.go:147-189): on a successful launch
(`startOk`, folding together runner resolution and `cmd.Start`), mark
running, stamp `lastRestart`, and increment `restartCount`.  The
restart delay, screen clearing, stream wiring, and the asynchronous
exit-monitor goroutine have no effect on these fields. -/
def startProcess (pm : ProcessManager) (startOk : Bool) (tLaunch : Int) :
    Except Unit ProcessManager :=
  if startOk then
    .ok { pm with isRunning := true, lastRestart := tLaunch, restartCount := pm.restartCount + 1 }
  else .error ()

/-- `stopProcess` (manager.go:192-229): a no-op when nothing runs;
otherwise the graceful or forced kill either succeeds (`stopOk`,
clearing the running flag) or returns before mutating anything. -/
def stopProcess (pm : ProcessManager) (stopOk : Bool) : Except Unit ProcessManager :=
  if pm.isRunning = false then .ok pm
  else if stopOk then .ok { pm with isRunning := false }
  else .error ()

/-- The restart-ceiling check opening `Restart` (manager.go:110-117):
when `MaxRestarts > 0`, reset the consecutive counter if more than
`ResetRestartsAfter` has passed since the last restart, otherwise fail
with the limit error once the counter has reached the ceiling. -/
def restartCeilingCheck (cfg : FileWatcherConfig) (pm : ProcessManager) (tCheck : Int) :
    Option ProcError × ProcessManager :=
  if 0 < cfg.maxRestarts then
    if cfg.resetRestartsAfter < tCheck - pm.lastRestart then
      (none, { pm with restartCount := 0 })
    else if cfg.maxRestarts ≤ pm.restartCount then (some .limitExceeded, pm)
    else (none, pm)
  else (none, pm)

/-- `Restart` (manager.go:105-136): ceiling check, stop the running
child, start the new one, and record the attempt (only launch
failures are recorded; a stop failure returns without touching the
stats, as in the source). -/
def Restart (cfg : FileWatcherConfig) (pm : ProcessManager) (env : RestartEnv)
    (reason : String) : Option ProcError × ProcessManager :=
  match restartCeilingCheck cfg pm env.tCheck with
  | (some e, pm1) => (some e, pm1)
  | (none, pm1) =>
    match (if pm1.isRunning then stopProcess pm1 env.stopOk else Except.ok pm1) with
    | .error _ => (some .stopFailed, pm1)
    | .ok pm2 =>
      match startProcess pm2 env.startOk env.tLaunch with
      | .error _ => (some .startFailed, recordRestartFailure pm2 env.tStart env.tEnd reason env.mem)
      | .ok pm3 => (none, recordRestartSuccess pm3 env.tStart env.tEnd reason env.mem)

/-- `Start` (manager.go:93-102). -/
def Start (pm : ProcessManager) (env : RestartEnv) : Option ProcError × ProcessManager :=
  if pm.isRunning then (some .alreadyRunning, pm)
  else
    match startProcess pm env.startOk env.tLaunch with
    | .ok pm2 => (none, pm2)
    | .error _ => (some .startFailed, pm)

/-- `Stop` (manager.go:139-144). -/
def Stop (pm : ProcessManager) (env : RestartEnv) : Option ProcError × ProcessManager :=
  match stopProcess pm env.stopOk with
  | .ok pm2 => (none, pm2)
  | .error _ => (some .stopFailed, pm)

/-- Run a sequence of `Restart` calls, collecting each call's error
slot. -/
def runRestarts (cfg : FileWatcherConfig) (reason : String) (pm : ProcessManager) :
    List RestartEnv → ProcessManager × List (Option ProcError)
  | [] => (pm, [])
  | env :: envs =>
    let r := Restart cfg pm env reason
    let rec2 := runRestarts cfg reason r.2 envs
    (rec2.1, r.1 :: rec2.2)

/-- Every environment in the list describes a restart attempted within
the reset window of the previous launch (the first relative to the
given `last` timestamp), with both the stop and the launch
succeeding. -/
def withinWindowB (cfg : FileWatcherConfig) : Int → List RestartEnv → Bool
  | _, [] => true
  | last, env :: envs =>
    decide (env.tCheck - last ≤ cfg.resetRestartsAfter) && env.stopOk && env.startOk &&
      withinWindowB cfg env.tLaunch envs

/-- The launch timestamp of the last environment in the list (or the
default when empty). -/
def lastLaunch (dflt : Int) : List RestartEnv → Int
  | [] => dflt
  | env :: envs => lastLaunch env.tLaunch envs

/-- The spec's `RestartStats` invariant. -/
def statsInvariant (s : RestartStats) : Prop :=
  s.totalRestarts = s.successfulRestarts + s.failedRestarts

instance (s : RestartStats) : Decidable (statsInvariant s) := by
  unfold statsInvariant
  infer_instance

end Process

/-! ### Concrete sample data for witnesses and counterexamples -/

/-- A stand-in digest function for concrete witnesses; every claim is
proved for an arbitrary digest function, since the code only compares
digests for equality. -/
def md5sample : List Nat → String :=
  fun bytes => String.mk (bytes.map (fun b => Char.ofNat (48 + b % 10)))

/-- A typical configuration with batching on (defaults from the CLI:
ignore `node_modules`, watch `.js`). -/
def cfgBatch : FileWatcherConfig :=
  { ignorePaths := ["node_modules"]
    extensions := [".js"]
    maxRestarts := 5
    resetRestartsAfter := 5000
    restartDelay := 0
    batchChanges := true
    batchTimeout := 300
    enableFileHashing := true
    maxFileSize := 0
    excludeEmptyFiles := false }

/-- The same configuration with batching disabled and a 10 MB size
limit. -/
def cfgDirect : FileWatcherConfig :=
  { cfgBatch with batchChanges := false, maxFileSize := 10 }

/-- The batching configuration with a short batch window. -/
def cfgTick : FileWatcherConfig :=
  { cfgBatch with batchTimeout := 10 }

/-- A first change event for `src/app.js`. -/
def evA : FileChangeEvent :=
  { eventType := "change"
    filename := "app.js"
    fullPath := "src/app.js"
    timestamp := 1
    size := 10
    hash := "h1"
    previousHash := "h0"
    isDirectory := false }

/-- A second change event for the same path, carrying the hash of the
newer content. -/
def evB : FileChangeEvent :=
  { evA with timestamp := 2, hash := "h2", previousHash := "h1" }

/-- The event the detector produces for a changed `notes.txt` (hash
and previous hash as computed by `checkForChanges` with
`md5sample`). -/
def evTxt : FileChangeEvent :=
  { eventType := "change"
    filename := "notes.txt"
    fullPath := "notes.txt"
    timestamp := 7
    size := 5
    hash := "45"
    previousHash := "45"
    isDirectory := false }

/-- A changed text file visited by the walk. -/
def entryTxt : Watcher.WalkEntry :=
  { path := "notes.txt", isDir := false, size := 5, content := some [104, 105] }

/-- A changed file nested under `node_modules`. -/
def entryNM : Watcher.WalkEntry :=
  { path := "node_modules/foo/bar.js", isDir := false, size := 3, content := some [1, 2, 3] }

/-- Watcher state right after `Start` armed the batch timer (deadline
one `cfgTick` window from time 0). -/
def wsInit : Watcher.WatcherState :=
  { batchBuffer := [], changeChannel := [], batchDeadline := 10, flushCount := 0 }

/-- A burst of two enqueues 6 time units apart (closer than the
10-unit batch window of `cfgTick`), with the timer firing at its
scheduled deadlines 10 and 20. -/
def burstTrace : List Watcher.BatchAction :=
  [.enq evA 6, .fire 10, .enq evB 12, .fire 20]

/-- Zero memory snapshot. -/
def memZero : MemoryUsage :=
  { heapTotal := 0, heapUsed := 0, externalMem := 0, processMemory := 0 }

/-- An environment where stop and launch both succeed. -/
def envOkA : Process.RestartEnv :=
  { tCheck := 5, tStart := 5, tLaunch := 6, tEnd := 7, stopOk := true, startOk := true,
    mem := memZero }

/-- A later environment, still within the reset window. -/
def envOkB : Process.RestartEnv :=
  { envOkA with tCheck := 20, tStart := 20, tLaunch := 21, tEnd := 22 }

/-- A manager with a running child that has reached one consecutive
restart. -/
def pmAtOne : Process.ProcessManager :=
  { Process.newProcessManager with restartCount := 1, isRunning := true }

/-- `cfgBatch` restricted to a ceiling of one restart. -/
def cfgMaxOne : FileWatcherConfig :=
  { cfgBatch with maxRestarts := 1 }

/-- `cfgBatch` with the ceiling disabled. -/
def cfgMaxZero : FileWatcherConfig :=
  { cfgBatch with maxRestarts := 0 }

/-- `cfgBatch` with a ceiling of two restarts. -/
def cfgMaxTwo : FileWatcherConfig :=
  { cfgBatch with maxRestarts := 2 }

/-- A manager whose counter is stale: five consecutive restarts, the
last one long ago. -/
def pmStale : Process.ProcessManager :=
  { Process.newProcessManager with restartCount := 5, isRunning := true }

/-- An environment whose check time falls well past the reset
window. -/
def envLate : Process.RestartEnv :=
  { envOkA with tCheck := 6000, tStart := 6000, tLaunch := 6001, tEnd := 6002 }

/-- A third in-window environment, after `envOkB`. -/
def envOkC : Process.RestartEnv :=
  { envOkA with tCheck := 30, tStart := 30, tLaunch := 31, tEnd := 32 }

/-- The manager right after the initial `Start` succeeded. -/
def pmAfterStart : Process.ProcessManager :=
  (Process.Start Process.newProcessManager envOkA).2

/-! ### Shared lemmas about the hash store -/

namespace Watcher

theorem hashLookup_hashInsert (fh : FileHashes) (path h : String) :
    hashLookup (hashInsert fh path h) path = h := by
  induction fh with
  | nil => simp [hashInsert, hashLookup]
  | cons kv rest ih =>
    by_cases hk : kv.1 = path
    · simp [hashInsert, hashLookup, hk]
    · simpa [hashInsert, hashLookup, hk] using ih

end Watcher

/-! ### Claim theorems -/

open Watcher Process GoStd

/-- C7: the change test is idempotent for unchanged bytes — a call to
`hasFileChanged` made right after another call with the same path,
kind and content returns `false` and leaves the stored digest for that
path (indeed the whole store) unmodified; and the digest computation
is deterministic: equal bytes always yield equal digests. -/
theorem hash_check_idempotent :
    (∀ (md5Hex : List Nat → String) (fh : FileHashes) (path : String) (isDir : Bool)
      (content : Option (List Nat)),
      hasFileChanged md5Hex (hasFileChanged md5Hex fh path isDir content).2 path isDir content
        = (false, (hasFileChanged md5Hex fh path isDir content).2)) ∧
    (∀ (md5Hex : List Nat → String) (b1 b2 : List Nat), b1 = b2 →
      calculateHash md5Hex (some b1) = calculateHash md5Hex (some b2)) := by
  constructor
  · intro md5Hex fh path isDir content
    by_cases hd : isDir = true
    · simp [hasFileChanged, hd]
    · by_cases hch : calculateHash md5Hex content ≠ hashLookup fh path
      · have h1 : hasFileChanged md5Hex fh path isDir content
            = (true, hashInsert fh path (calculateHash md5Hex content)) := by
          unfold hasFileChanged
          rw [if_neg hd, if_pos hch]
        rw [h1]
        unfold hasFileChanged
        rw [if_neg hd, if_neg (by simp [hashLookup_hashInsert])]
      · have h1 : hasFileChanged md5Hex fh path isDir content = (false, fh) := by
          unfold hasFileChanged
          rw [if_neg hd, if_neg hch]
        rw [h1]
        unfold hasFileChanged
        rw [if_neg hd, if_neg hch]
  · intro md5Hex b1 b2 h
    rw [h]

/-- C7 witness: a concrete instantiation of the determinism clause. -/
theorem hash_check_idempotent_witness :
    calculateHash md5sample (some [1, 2]) = calculateHash md5sample (some [1, 2]) :=
  hash_check_idempotent.2 md5sample [1, 2] [1, 2] rfl

/-- C9 counterexample: an unreadable file (`content = none`) is not
reported as an error — `calculateHash` returns the ordinary digest
value `""`, and `hasFileChanged` then compares it against the stored
digest, reports a change, and overwrites the stored digest with
`""`. -/
theorem unreadable_silent_digest_cex :
    calculateHash md5sample none = "" ∧
    hasFileChanged md5sample [("app.js", "abc")] "app.js" false none
      = (true, [("app.js", "")]) := by
  constructor
  · rfl
  · decide

/-- C9 (amended): on an unreadable file the digest computation returns
the empty string instead of failing; the change test then treats `""`
as an ordinary digest — whenever a non-empty digest is stored for the
path, the unreadable file is reported as changed and its stored digest
is overwritten with `""`. -/
theorem unreadable_hash_empty (md5Hex : List Nat → String) (fh : FileHashes) (path : String)
    (h : hashLookup fh path ≠ "") :
    calculateHash md5Hex none = "" ∧
    hasFileChanged md5Hex fh path false none = (true, hashInsert fh path "") := by
  refine ⟨rfl, ?_⟩
  have hne : calculateHash md5Hex none ≠ hashLookup fh path := fun hc => h hc.symm
  unfold hasFileChanged
  rw [if_neg (by simp), if_pos hne]
  rfl

/-- C9 witness. -/
theorem unreadable_hash_empty_witness :
    calculateHash md5sample none = "" ∧
    hasFileChanged md5sample [("app.js", "abc")] "app.js" false none
      = (true, hashInsert [("app.js", "abc")] "app.js" "") :=
  unreadable_hash_empty md5sample [("app.js", "abc")] "app.js" (by decide)

/-- C2 counterexample: a batch holding two change events for the same
path (the second carrying the newer content hash), both passing the
secondary filters, is flushed as two events for that path — the flush
performs no per-path deduplication. -/
theorem batch_flush_dedup_cex :
    processBatchEvent cfgBatch [evA, evB] = [evA, evB] ∧
    evA.fullPath = evB.fullPath ∧ evA.hash ≠ evB.hash := by
  refine ⟨by decide, rfl, by decide⟩

/-- C2 (amended): the flush emits every batched event that passes the
secondary filters (empty-file, size, extension), in arrival order and
with multiplicity — in particular a batch of N events for one path
that all pass the filters is flushed as all N events, each carrying
its own content hash (the last of which is the final version's). -/
theorem batch_flush_no_dedup (cfg : FileWatcherConfig) (changes : List FileChangeEvent)
    (h : ∀ c ∈ changes, batchFilter cfg c = true) :
    processBatchEvent cfg changes = changes := by
  have hf : changes.filter (fun change => batchFilter cfg change) = changes :=
    List.filter_eq_self.mpr h
  unfold processBatchEvent
  rw [hf]
  cases changes with
  | nil => simp
  | cons c rest => simp

/-- C2 witness. -/
theorem batch_flush_no_dedup_witness :
    processBatchEvent cfgBatch [evA, evB] = [evA, evB] :=
  batch_flush_no_dedup cfgBatch [evA, evB] (by decide)

/-- C3 counterexample: with a 10-unit batch window, a realistic trace
in which two events arrive 6 time units apart (closer than the window)
is flushed twice, not once — the timer fires at its fixed schedule
(10, 20) regardless of the enqueue at time 6 or 12, splitting the
burst. -/
theorem batch_window_sliding_cex :
    batchTraceValid cfgTick wsInit 0 burstTrace = true ∧
    (batchRun cfgTick wsInit burstTrace).flushCount = 2 ∧
    (batchRun cfgTick wsInit burstTrace).changeChannel = [evA, evB] := by
  refine ⟨by decide, by decide, by decide⟩

/-- C3 (amended): the batch window is a fixed periodic schedule, not a
sliding debounce — enqueueing an event never touches the pending timer
deadline, while every timer fire at time t flushes whatever
accumulated (counting a flush exactly when the buffer was non-empty)
and re-arms the timer for t + batchTimeout. -/
theorem batch_window_fixed_schedule (cfg : FileWatcherConfig) (ws : WatcherState)
    (event : FileChangeEvent) (t : Int) :
    (handleChange cfg ws event).batchDeadline = ws.batchDeadline ∧
    (processBatchTick cfg ws t).batchDeadline = t + cfg.batchTimeout ∧
    (processBatchTick cfg ws t).batchBuffer = [] ∧
    (processBatchTick cfg ws t).changeChannel
      = ws.changeChannel ++ processBatchEvent cfg ws.batchBuffer ∧
    (processBatchTick cfg ws t).flushCount
      = ws.flushCount + (if ws.batchBuffer = [] then 0 else 1) := by
  refine ⟨?_, ?_, ?_, ?_, ?_⟩
  · unfold handleChange
    split <;> rfl
  · unfold processBatchTick
    split <;> rfl
  · unfold processBatchTick
    split <;> simp_all
  · unfold processBatchTick
    split
    · simp_all [processBatchEvent]
    · rfl
  · unfold processBatchTick
    split <;> simp_all

/-- C4: evaluation of the embedded detector at the failing input — the
path `node_modules/foo/bar.js` is NOT treated as ignored under the
ignore pattern `node_modules` (`filepath.Match` only matches the whole
path), and a change event IS produced for it. -/
theorem ignore_pattern_nested_eval :
    shouldIgnorePath cfgBatch "node_modules/foo/bar.js" = false ∧
    (checkForChanges cfgBatch md5sample [] entryNM 5).1.isSome = true := by
  refine ⟨by decide, by decide⟩

/-- C5 counterexample: with batching disabled, a changed `.txt` file —
whose extension is not in the allowed set — passes the detector
(ignore patterns, size limit, hash change) and is delivered directly on
the change channel; the extension allow-list never runs. -/
theorem direct_path_extension_cex :
    (checkForChanges cfgDirect md5sample [] entryTxt 7).1 = some evTxt ∧
    handleChange cfgDirect wsInit evTxt = { wsInit with changeChannel := [evTxt] } ∧
    cfgDirect.extensions.any (fun ext => filepathExt evTxt.filename == ext) = false := by
  refine ⟨by decide, by decide, by decide⟩

/-- C5 (amended): the extension allow-list is enforced only on the
batched flush path; whenever batching is disabled, `handleChange`
forwards every detector event to the change channel unconditionally,
with no extension (or any other) filtering. -/
theorem direct_path_bypasses_filters (cfg : FileWatcherConfig) (ws : WatcherState)
    (event : FileChangeEvent) (h : cfg.batchChanges = false) :
    handleChange cfg ws event = { ws with changeChannel := ws.changeChannel ++ [event] } := by
  simp [handleChange, h]

/-- C5 witness. -/
theorem direct_path_bypasses_filters_witness :
    handleChange cfgDirect wsInit evA = { wsInit with changeChannel := [evA] } := by
  have h := direct_path_bypasses_filters cfgDirect wsInit evA (by decide)
  simpa using h

/-! ### Shared lemmas about the process manager -/

namespace Process

theorem recordRestartSuccess_restartCount (pm : ProcessManager) (t1 t2 : Int) (r : String)
    (m : MemoryUsage) : (recordRestartSuccess pm t1 t2 r m).restartCount = pm.restartCount :=
  rfl

theorem recordRestartSuccess_lastRestart (pm : ProcessManager) (t1 t2 : Int) (r : String)
    (m : MemoryUsage) : (recordRestartSuccess pm t1 t2 r m).lastRestart = pm.lastRestart :=
  rfl

theorem recordRestartSuccess_isRunning (pm : ProcessManager) (t1 t2 : Int) (r : String)
    (m : MemoryUsage) : (recordRestartSuccess pm t1 t2 r m).isRunning = pm.isRunning :=
  rfl

theorem recordRestartFailure_restartCount (pm : ProcessManager) (t1 t2 : Int) (r : String)
    (m : MemoryUsage) : (recordRestartFailure pm t1 t2 r m).restartCount = pm.restartCount :=
  rfl

/-- The ceiling check never touches the stats, the running flag, or
the last-restart stamp: it only ever resets `restartCount`. -/
theorem restartCeilingCheck_fields (cfg : FileWatcherConfig) (pm : ProcessManager) (t : Int) :
    (restartCeilingCheck cfg pm t).2.stats = pm.stats ∧
    (restartCeilingCheck cfg pm t).2.isRunning = pm.isRunning ∧
    (restartCeilingCheck cfg pm t).2.lastRestart = pm.lastRestart := by
  unfold restartCeilingCheck
  split_ifs <;> exact ⟨rfl, rfl, rfl⟩

/-- The only failing outcome of the ceiling check is the limit error,
with the manager untouched. -/
theorem restartCeilingCheck_some (cfg : FileWatcherConfig) (pm : ProcessManager) (t : Int)
    (e : ProcError) (pm1 : ProcessManager)
    (h : restartCeilingCheck cfg pm t = (some e, pm1)) :
    e = ProcError.limitExceeded ∧ pm1 = pm := by
  unfold restartCeilingCheck at h
  split_ifs at h <;> simp_all

/-- Once the ceiling check passes, a restart with a stoppable and
startable child succeeds, incrementing the counter that the check
produced and stamping the launch time. -/
theorem Restart_after_ceiling_ok (cfg : FileWatcherConfig) (pm pm1 : ProcessManager)
    (env : RestartEnv) (reason : String)
    (hceil : restartCeilingCheck cfg pm env.tCheck = (none, pm1))
    (hstop : env.stopOk = true) (hstart : env.startOk = true) :
    (Restart cfg pm env reason).1 = none ∧
    (Restart cfg pm env reason).2.restartCount = pm1.restartCount + 1 ∧
    (Restart cfg pm env reason).2.lastRestart = env.tLaunch ∧
    (Restart cfg pm env reason).2.isRunning = true := by
  by_cases hrun : pm1.isRunning = true <;>
    simp [Restart, hceil, stopProcess, startProcess, hrun, hstop, hstart,
      recordRestartSuccess_restartCount, recordRestartSuccess_lastRestart,
      recordRestartSuccess_isRunning]

/-- Once the ceiling check passes, no execution path of `Restart` can
return the limit error. -/
theorem Restart_no_limit_after_ceiling (cfg : FileWatcherConfig) (pm pm1 : ProcessManager)
    (env : RestartEnv) (reason : String)
    (hceil : restartCeilingCheck cfg pm env.tCheck = (none, pm1)) :
    (Restart cfg pm env reason).1 ≠ some ProcError.limitExceeded := by
  by_cases hrun : pm1.isRunning = true <;> by_cases hstop : env.stopOk = true <;>
    by_cases hstart : env.startOk = true <;>
      simp [Restart, hceil, stopProcess, startProcess, hrun, hstop, hstart]

/-- A restart attempted within the reset window, below the ceiling,
with a stoppable and startable child, succeeds and increments the
consecutive counter. -/
theorem restart_step_success (cfg : FileWatcherConfig) (pm : ProcessManager) (env : RestartEnv)
    (reason : String) (hmax : 0 < cfg.maxRestarts)
    (hwin : env.tCheck - pm.lastRestart ≤ cfg.resetRestartsAfter)
    (hcnt : pm.restartCount < cfg.maxRestarts)
    (hstop : env.stopOk = true) (hstart : env.startOk = true) :
    (Restart cfg pm env reason).1 = none ∧
    (Restart cfg pm env reason).2.restartCount = pm.restartCount + 1 ∧
    (Restart cfg pm env reason).2.lastRestart = env.tLaunch := by
  have hceil : restartCeilingCheck cfg pm env.tCheck = (none, pm) := by
    unfold restartCeilingCheck
    rw [if_pos hmax, if_neg (not_lt.mpr hwin), if_neg (not_le.mpr hcnt)]
  obtain ⟨h1, h2, h3, _⟩ := Restart_after_ceiling_ok cfg pm pm env reason hceil hstop hstart
  exact ⟨h1, h2, h3⟩

/-- A restart attempted within the reset window once the counter has
reached the ceiling fails with the limit error, leaving the manager
untouched. -/
theorem restart_ceiling_fail (cfg : FileWatcherConfig) (pm : ProcessManager) (env : RestartEnv)
    (reason : String) (hmax : 0 < cfg.maxRestarts)
    (hwin : env.tCheck - pm.lastRestart ≤ cfg.resetRestartsAfter)
    (hcnt : cfg.maxRestarts ≤ pm.restartCount) :
    Restart cfg pm env reason = (some ProcError.limitExceeded, pm) := by
  have hceil : restartCeilingCheck cfg pm env.tCheck = (some .limitExceeded, pm) := by
    unfold restartCeilingCheck
    rw [if_pos hmax, if_neg (not_lt.mpr hwin), if_pos hcnt]
  simp [Restart, hceil]

/-- Running a list of in-window, stoppable, startable restart
environments from a counter with enough headroom: every call
succeeds, the counter grows by the number of calls, and the
last-restart stamp is the last launch time. -/
theorem runRestarts_within (cfg : FileWatcherConfig) (reason : String) :
    ∀ (envs : List RestartEnv) (pm : ProcessManager),
      0 < cfg.maxRestarts →
      withinWindowB cfg pm.lastRestart envs = true →
      pm.restartCount + (envs.length : Int) ≤ cfg.maxRestarts →
      (runRestarts cfg reason pm envs).2 = List.replicate envs.length none ∧
      (runRestarts cfg reason pm envs).1.restartCount
        = pm.restartCount + (envs.length : Int) ∧
      (runRestarts cfg reason pm envs).1.lastRestart = lastLaunch pm.lastRestart envs := by
  intro envs
  induction envs with
  | nil =>
    intro pm _ _ _
    refine ⟨rfl, by simp [runRestarts], rfl⟩
  | cons env envs ih =>
    intro pm hmax hwin hle
    have hwin' := hwin
    unfold withinWindowB at hwin'
    simp only [Bool.and_eq_true, decide_eq_true_eq] at hwin'
    obtain ⟨⟨⟨hw1, hw2⟩, hw3⟩, hw4⟩ := hwin'
    have hlen : (0 : Int) ≤ (envs.length : Int) := Int.natCast_nonneg _
    simp only [List.length_cons] at hle
    push_cast at hle
    have hcnt : pm.restartCount < cfg.maxRestarts := by omega
    obtain ⟨hs1, hs2, hs3⟩ := restart_step_success cfg pm env reason hmax hw1 hcnt hw2 hw3
    have hrec := ih ((Restart cfg pm env reason).2) hmax (by rw [hs3]; exact hw4) (by rw [hs2]; omega)
    refine ⟨?_, ?_, ?_⟩
    · simp only [runRestarts]
      rw [hs1, hrec.1]
      simp [List.replicate]
    · have hc1 := hrec.2.1
      simp only [runRestarts, List.length_cons]
      push_cast at hc1 ⊢
      omega
    · simp only [runRestarts]
      rw [hrec.2.2, hs3]
      rfl

/-- `addToHistory` never touches the restart counters. -/
theorem addToHistory_counts (s : RestartStats) (t : Int) (r : String) (d : Int) (b : Bool)
    (m : MemoryUsage) :
    (addToHistory s t r d b m).totalRestarts = s.totalRestarts ∧
    (addToHistory s t r d b m).successfulRestarts = s.successfulRestarts ∧
    (addToHistory s t r d b m).failedRestarts = s.failedRestarts :=
  ⟨rfl, rfl, rfl⟩

/-- `recordRestartSuccess` preserves the stats invariant. -/
theorem statsInvariant_recordSuccess (pm : ProcessManager) (t1 t2 : Int) (r : String)
    (m : MemoryUsage) (h : statsInvariant pm.stats) :
    statsInvariant (recordRestartSuccess pm t1 t2 r m).stats := by
  unfold statsInvariant recordRestartSuccess at *
  simp only [(addToHistory_counts _ _ _ _ _ _).1, (addToHistory_counts _ _ _ _ _ _).2.1,
    (addToHistory_counts _ _ _ _ _ _).2.2]
  omega

/-- `recordRestartFailure` preserves the stats invariant. -/
theorem statsInvariant_recordFailure (pm : ProcessManager) (t1 t2 : Int) (r : String)
    (m : MemoryUsage) (h : statsInvariant pm.stats) :
    statsInvariant (recordRestartFailure pm t1 t2 r m).stats := by
  unfold statsInvariant recordRestartFailure at *
  simp only [(addToHistory_counts _ _ _ _ _ _).1, (addToHistory_counts _ _ _ _ _ _).2.1,
    (addToHistory_counts _ _ _ _ _ _).2.2]
  omega

/-- `stopProcess` can only succeed without touching anything but the
running flag. -/
theorem stopProcess_ok_fields (pm pm2 : ProcessManager) (stopOk : Bool)
    (h : stopProcess pm stopOk = .ok pm2) :
    pm2.stats = pm.stats ∧ pm2.restartCount = pm.restartCount ∧
    pm2.lastRestart = pm.lastRestart := by
  unfold stopProcess at h
  split_ifs at h
  · injection h with h2
    rw [← h2]
    exact ⟨rfl, rfl, rfl⟩
  · injection h with h2
    rw [← h2]
    exact ⟨rfl, rfl, rfl⟩

/-- `startProcess` can only succeed by setting the running flag,
stamping the launch time, and incrementing the counter. -/
theorem startProcess_ok_fields (pm pm3 : ProcessManager) (startOk : Bool) (t : Int)
    (h : startProcess pm startOk t = .ok pm3) :
    pm3.stats = pm.stats ∧ pm3.restartCount = pm.restartCount + 1 ∧
    pm3.lastRestart = t ∧ pm3.isRunning = true := by
  unfold startProcess at h
  split_ifs at h
  · injection h with h2
    rw [← h2]
    exact ⟨rfl, rfl, rfl, rfl⟩

end Process

/-! ### Claim theorems about the process manager -/

/-- C6: the RestartStats invariant `TotalRestarts = SuccessfulRestarts
+ FailedRestarts` holds for the fresh manager and is preserved by
every operation of the process manager: `Restart`, `Start`, `Stop`,
and the two recording helpers. -/
theorem stats_invariant_preserved :
    statsInvariant newProcessManager.stats ∧
    (∀ (cfg : FileWatcherConfig) (pm : ProcessManager) (env : RestartEnv) (reason : String),
      statsInvariant pm.stats → statsInvariant (Restart cfg pm env reason).2.stats) ∧
    (∀ (pm : ProcessManager) (env : RestartEnv),
      statsInvariant pm.stats → statsInvariant (Start pm env).2.stats) ∧
    (∀ (pm : ProcessManager) (env : RestartEnv),
      statsInvariant pm.stats → statsInvariant (Stop pm env).2.stats) ∧
    (∀ (pm : ProcessManager) (t1 t2 : Int) (reason : String) (mem : MemoryUsage),
      statsInvariant pm.stats →
      statsInvariant (recordRestartSuccess pm t1 t2 reason mem).stats) ∧
    (∀ (pm : ProcessManager) (t1 t2 : Int) (reason : String) (mem : MemoryUsage),
      statsInvariant pm.stats →
      statsInvariant (recordRestartFailure pm t1 t2 reason mem).stats) := by
  refine ⟨by decide, ?_, ?_, ?_, statsInvariant_recordSuccess, statsInvariant_recordFailure⟩
  · intro cfg pm env reason h
    rcases hceil : restartCeilingCheck cfg pm env.tCheck with ⟨eopt, pm1⟩
    have hst : pm1.stats = pm.stats := by
      have h0 := (restartCeilingCheck_fields cfg pm env.tCheck).1
      rw [hceil] at h0
      exact h0
    have hinv1 : statsInvariant pm1.stats := by rw [hst]; exact h
    cases eopt with
    | some e =>
      simp only [Restart, hceil]
      exact hinv1
    | none =>
      simp only [Restart, hceil]
      split
      · exact hinv1
      · rename_i pm2 heq
        have hpm2 : pm2.stats = pm1.stats := by
          by_cases hrun : pm1.isRunning = true
          · rw [if_pos hrun] at heq
            exact (stopProcess_ok_fields _ _ _ heq).1
          · rw [if_neg hrun] at heq
            injection heq with h2
            rw [← h2]
        have hinv2 : statsInvariant pm2.stats := by rw [hpm2]; exact hinv1
        split
        · apply statsInvariant_recordFailure
          exact hinv2
        · rename_i pm3 heq2
          apply statsInvariant_recordSuccess
          show statsInvariant pm3.stats
          rw [(startProcess_ok_fields _ _ _ _ heq2).1]
          exact hinv2
  · intro pm env h
    unfold Start
    split
    · exact h
    · split
      · rename_i pm2 heq
        show statsInvariant pm2.stats
        rw [(startProcess_ok_fields _ _ _ _ heq).1]
        exact h
      · exact h
  · intro pm env h
    unfold Stop
    split
    · rename_i pm2 heq
      show statsInvariant pm2.stats
      rw [(stopProcess_ok_fields _ _ _ heq).1]
      exact h
    · exact h

/-- C6 witness. -/
theorem stats_invariant_preserved_witness :
    statsInvariant (Restart cfgMaxTwo pmAfterStart envOkB "2 files changed").2.stats :=
  stats_invariant_preserved.2.1 cfgMaxTwo pmAfterStart envOkB "2 files changed" (by decide)

/-- C8: whenever `Restart` fails with the restart-limit error, it does
so atomically — the result is exactly the distinct `limitExceeded`
error together with the completely untouched manager (running flag,
counter, last-restart stamp and stats all unchanged, and no stop was
attempted on the running child). -/
theorem restart_limit_atomic (cfg : FileWatcherConfig) (pm : ProcessManager) (env : RestartEnv)
    (reason : String) (h : (Restart cfg pm env reason).1 = some ProcError.limitExceeded) :
    Restart cfg pm env reason = (some ProcError.limitExceeded, pm) := by
  rcases hceil : restartCeilingCheck cfg pm env.tCheck with ⟨eopt, pm1⟩
  cases eopt with
  | some e =>
    obtain ⟨he, hpm⟩ := restartCeilingCheck_some cfg pm env.tCheck e pm1 hceil
    subst he
    subst hpm
    simp [Restart, hceil]
  | none =>
    exact absurd h (Restart_no_limit_after_ceiling cfg pm pm1 env reason hceil)

/-- C8 witness. -/
theorem restart_limit_atomic_witness :
    Restart cfgMaxOne pmAtOne envOkA "change" = (some ProcError.limitExceeded, pmAtOne) :=
  restart_limit_atomic cfgMaxOne pmAtOne envOkA "change" (by decide)

/-- C1: the restart ceiling.  (i) A restart attempted within the reset
window once the counter has reached `maxRestarts` fails with the
distinct limit error, untouched state; (ii) from a zero counter, a
sequence of k in-window restart calls (stoppable/startable child) all
succeed and the (k+1)-th in-window attempt fails with the limit error;
(iii) a restart attempted more than `resetRestartsAfter` after the
last one resets the consecutive counter to zero and succeeds when the
child can be started (the successful launch then counts itself,
leaving the counter at 0 + 1); (iv) with `maxRestarts = 0` the ceiling
is never enforced. -/
theorem restart_ceiling_behavior :
    (∀ (cfg : FileWatcherConfig) (pm : ProcessManager) (env : RestartEnv) (reason : String),
      0 < cfg.maxRestarts →
      env.tCheck - pm.lastRestart ≤ cfg.resetRestartsAfter →
      cfg.maxRestarts ≤ pm.restartCount →
      Restart cfg pm env reason = (some ProcError.limitExceeded, pm)) ∧
    (∀ (cfg : FileWatcherConfig) (pm : ProcessManager) (reason : String) (k : Nat)
      (envs : List RestartEnv) (env : RestartEnv),
      cfg.maxRestarts = (k : Int) → 0 < k → pm.restartCount = 0 →
      withinWindowB cfg pm.lastRestart envs = true →
      envs.length = k →
      env.tCheck - lastLaunch pm.lastRestart envs ≤ cfg.resetRestartsAfter →
      (runRestarts cfg reason pm envs).2 = List.replicate k none ∧
      Restart cfg (runRestarts cfg reason pm envs).1 env reason
        = (some ProcError.limitExceeded, (runRestarts cfg reason pm envs).1)) ∧
    (∀ (cfg : FileWatcherConfig) (pm : ProcessManager) (env : RestartEnv) (reason : String),
      0 < cfg.maxRestarts →
      cfg.resetRestartsAfter < env.tCheck - pm.lastRestart →
      env.stopOk = true → env.startOk = true →
      (restartCeilingCheck cfg pm env.tCheck).2.restartCount = 0 ∧
      (Restart cfg pm env reason).1 = none ∧
      (Restart cfg pm env reason).2.restartCount = 0 + 1) ∧
    (∀ (cfg : FileWatcherConfig) (pm : ProcessManager) (env : RestartEnv) (reason : String),
      cfg.maxRestarts = 0 →
      (Restart cfg pm env reason).1 ≠ some ProcError.limitExceeded) := by
  refine ⟨restart_ceiling_fail, ?_, ?_, ?_⟩
  · intro cfg pm reason k envs env hk hkpos hcnt0 hwin hlen hnext
    have hmax : 0 < cfg.maxRestarts := by
      rw [hk]
      exact_mod_cast hkpos
    have hle : pm.restartCount + (envs.length : Int) ≤ cfg.maxRestarts := by
      rw [hcnt0, hlen, hk]
      simp
    obtain ⟨h1, h2, h3⟩ := runRestarts_within cfg reason envs pm hmax hwin hle
    refine ⟨by rw [h1, hlen], ?_⟩
    apply restart_ceiling_fail
    · exact hmax
    · rw [h3]
      exact hnext
    · rw [h2, hcnt0, hlen, hk]
      simp
  · intro cfg pm env reason hmax hlate hstop hstart
    have hceil : restartCeilingCheck cfg pm env.tCheck
        = (none, { pm with restartCount := 0 }) := by
      unfold restartCeilingCheck
      rw [if_pos hmax, if_pos hlate]
    obtain ⟨h1, h2, _, _⟩ := Restart_after_ceiling_ok cfg pm _ env reason hceil hstop hstart
    refine ⟨by rw [hceil], h1, by rw [h2]⟩
  · intro cfg pm env reason h0
    have hceil : restartCeilingCheck cfg pm env.tCheck = (none, pm) := by
      unfold restartCeilingCheck
      rw [if_neg (by rw [h0]; exact lt_irrefl 0)]
    exact Restart_no_limit_after_ceiling cfg pm pm env reason hceil

/-- C1 witness: concrete instantiations of all four parts (ceiling of
one; fresh manager; one in-window restart succeeds, the next fails;
a stale counter of five is reset by a late restart; ceiling of zero
never fails with the limit error). -/
theorem restart_ceiling_behavior_witness :
    Restart cfgMaxOne pmAtOne envOkA "r" = (some ProcError.limitExceeded, pmAtOne) ∧
    ((runRestarts cfgMaxOne "r" newProcessManager [envOkA]).2 = List.replicate 1 none ∧
      Restart cfgMaxOne (runRestarts cfgMaxOne "r" newProcessManager [envOkA]).1 envOkB "r"
        = (some ProcError.limitExceeded,
            (runRestarts cfgMaxOne "r" newProcessManager [envOkA]).1)) ∧
    ((restartCeilingCheck cfgMaxOne pmStale envLate.tCheck).2.restartCount = 0 ∧
      (Restart cfgMaxOne pmStale envLate "r").1 = none ∧
      (Restart cfgMaxOne pmStale envLate "r").2.restartCount = 0 + 1) ∧
    (Restart cfgMaxZero pmAtOne envOkA "r").1 ≠ some ProcError.limitExceeded :=
  ⟨restart_ceiling_behavior.1 cfgMaxOne pmAtOne envOkA "r" (by decide) (by decide) (by decide),
   restart_ceiling_behavior.2.1 cfgMaxOne newProcessManager "r" 1 [envOkA] envOkB (by decide)
     (by decide) rfl (by decide) rfl (by decide),
   restart_ceiling_behavior.2.2.1 cfgMaxOne pmStale envLate "r" (by decide) (by decide) rfl rfl,
   restart_ceiling_behavior.2.2.2 cfgMaxZero pmAtOne envOkA "r" rfl⟩

/-- C10: every successful launch increments the consecutive-restart
counter, including the very first `Start` (a fresh manager's counter
is 1 after `Start`); consequently with `maxRestarts = k`, after the
initial `Start`, k−1 in-window `Restart` calls succeed and the next
in-window attempt is rejected by the ceiling check. -/
theorem restart_counter_includes_start :
    (∀ (pm : ProcessManager) (env : RestartEnv),
      pm.isRunning = false → env.startOk = true →
      (Start pm env).1 = none ∧ (Start pm env).2.restartCount = pm.restartCount + 1) ∧
    (∀ env : RestartEnv, env.startOk = true →
      (Start newProcessManager env).2.restartCount = 1) ∧
    (∀ (cfg : FileWatcherConfig) (pm : ProcessManager) (reason : String) (k : Nat)
      (envs : List RestartEnv) (env : RestartEnv),
      cfg.maxRestarts = (k : Int) → 0 < k → pm.restartCount = 1 →
      withinWindowB cfg pm.lastRestart envs = true →
      (envs.length : Int) = (k : Int) - 1 →
      env.tCheck - lastLaunch pm.lastRestart envs ≤ cfg.resetRestartsAfter →
      (runRestarts cfg reason pm envs).2 = List.replicate envs.length none ∧
      Restart cfg (runRestarts cfg reason pm envs).1 env reason
        = (some ProcError.limitExceeded, (runRestarts cfg reason pm envs).1)) := by
  have hstart1 : ∀ (pm : ProcessManager) (env : RestartEnv),
      pm.isRunning = false → env.startOk = true →
      (Start pm env).1 = none ∧ (Start pm env).2.restartCount = pm.restartCount + 1 := by
    intro pm env hrun hstart
    unfold Start
    rw [if_neg (by simp [hrun])]
    have hsp : startProcess pm env.startOk env.tLaunch = .ok { pm with isRunning := true, lastRestart := env.tLaunch, restartCount := pm.restartCount + 1 } := by
      unfold startProcess
      rw [if_pos hstart]
    rw [hsp]
    exact ⟨rfl, rfl⟩
  refine ⟨hstart1, ?_, ?_⟩
  · intro env hstart
    have h := (hstart1 newProcessManager env rfl hstart).2
    rw [h]
    rfl
  · intro cfg pm reason k envs env hk hkpos hcnt1 hwin hlen hnext
    have hmax : 0 < cfg.maxRestarts := by
      rw [hk]
      exact_mod_cast hkpos
    have hkk : (1 : Int) ≤ (k : Int) := by exact_mod_cast hkpos
    have hle : pm.restartCount + (envs.length : Int) ≤ cfg.maxRestarts := by
      rw [hcnt1, hlen, hk]
      omega
    obtain ⟨h1, h2, h3⟩ := runRestarts_within cfg reason envs pm hmax hwin hle
    refine ⟨h1, ?_⟩
    apply restart_ceiling_fail
    · exact hmax
    · rw [h3]
      exact hnext
    · rw [h2, hcnt1, hlen, hk]
      omega

/-- C10 witness: after the initial `Start` of a fresh manager the
counter is 1; with a ceiling of two, one in-window restart succeeds
and the next in-window attempt is rejected. -/
theorem restart_counter_includes_start_witness :
    ((Start newProcessManager envOkA).1 = none ∧
      (Start newProcessManager envOkA).2.restartCount = newProcessManager.restartCount + 1) ∧
    (Start newProcessManager envOkA).2.restartCount = 1 ∧
    ((runRestarts cfgMaxTwo "r" pmAfterStart [envOkB]).2 = List.replicate 1 none ∧
      Restart cfgMaxTwo (runRestarts cfgMaxTwo "r" pmAfterStart [envOkB]).1 envOkC "r"
        = (some ProcError.limitExceeded,
            (runRestarts cfgMaxTwo "r" pmAfterStart [envOkB]).1)) :=
  ⟨restart_counter_includes_start.1 newProcessManager envOkA rfl rfl,
   restart_counter_includes_start.2.1 envOkA rfl,
   restart_counter_includes_start.2.2 cfgMaxTwo pmAfterStart "r" 2 [envOkB] envOkC (by decide)
     (by decide) (by decide) (by decide) (by decide) (by decide)⟩

/-- Sanity evaluations of the embedded Go standard-library helpers on
concrete inputs: a glob star stays inside one path segment, character
classes and negation work, and the extension, base, split, contains
and Atoi helpers behave as in Go. -/
theorem gostd_embedding_sanity :
    matchedOrFalse "node_modules" "node_modules" = true ∧
    matchedOrFalse "*.js" "bar.js" = true ∧
    matchedOrFalse "*.js" "foo/bar.js" = false ∧
    matchedOrFalse "[a-c]x" "bx" = true ∧
    matchedOrFalse "[^a-c]x" "dx" = true ∧
    filepathExt "notes.txt" = ".txt" ∧
    filepathExt "noext" = "" ∧
    filepathBase "node_modules/foo/bar.js" = "bar.js" ∧
    goSplitSpace "3 files changed" = ["3", "files", "changed"] ∧
    goContains "3 files changed" "files changed" = true ∧
    goAtoi "42" = some 42 ∧ goAtoi "-7" = some (-7) ∧ goAtoi "x7" = none := by
  refine ⟨by decide, by decide, by decide, by decide, by decide, by decide, by decide,
    by decide, by decide, by decide, by decide, by decide, by decide⟩

end QuickDev
